import Mathlib

/-
Shallow embedding of GeoXForm/esri-to-geojson (src/index.js, v1.0.2 — the
ES6 source whose fromCSV half sanitizes headers and whose fromEsri half is
shared verbatim with the older copy in the repository).

JavaScript numbers are modelled as exact rationals (`Rat`) together with the
special values NaN, +Infinity and -Infinity; float rounding is not modelled
(none of the verified properties depends on it).  Fallible external
capabilities — the arcgis-to-geojson-utils converter and the host's
implementation-defined `Date`-string parsing — are parameters of the
embedding, as the spec itself treats them (§4.3, §6).
-/

namespace EsriToGeoJSON

/-- A JavaScript value as it occurs in this library: JSON data, numbers
produced by `parseFloat`/`Number`, strings, booleans, arrays and plain
objects (an object is its ordered field list). -/
inductive Value where
  | vNull
  | vUndefined
  | vNaN
  | vInf
  | vNegInf
  | vNum (q : Rat)
  | vStr (s : String)
  | vBool (b : Bool)
  | vArr (elems : List Value)
  | vObj (flds : List (String × Value))

/-- JavaScript truthiness: `null`, `undefined`, `NaN`, `0`, `""` and `false`
are falsy; every object and array is truthy. -/
def truthy : Value → Bool
  | .vNull => false
  | .vUndefined => false
  | .vNaN => false
  | .vInf => true
  | .vNegInf => true
  | .vNum q => if q = 0 then false else true
  | .vStr s => !s.isEmpty
  | .vBool b => b
  | .vArr _ => true
  | .vObj _ => true

/-- Is the value of JavaScript type `number` (including `NaN` and the
infinities)? -/
def isNumber : Value → Bool
  | .vNum _ => true
  | .vNaN => true
  | .vInf => true
  | .vNegInf => true
  | _ => false

/-- JavaScript strict equality `===` restricted to the values this library
compares (coded-domain codes are JSON scalars).  `NaN === x` is always
false.  Distinct arrays/objects compare by reference; the attribute value
and a freshly JSON-parsed domain code are never the same reference, so the
object cases are `false`. -/
def strictEq : Value → Value → Bool
  | .vNull, .vNull => true
  | .vUndefined, .vUndefined => true
  | .vInf, .vInf => true
  | .vNegInf, .vNegInf => true
  | .vNum a, .vNum b => decide (a = b)
  | .vStr a, .vStr b => a == b
  | .vBool a, .vBool b => a == b
  | _, _ => false

/-- Ordered-object lookup (`obj[k]`), `none` when the key is absent. -/
def objGet {α : Type} : List (String × α) → String → Option α
  | [], _ => none
  | (k', v') :: rest, k => if k' = k then some v' else objGet rest k

/-- Ordered-object assignment `obj[k] = v`: overwrite in place when the key
exists (its position is kept), append otherwise — JS property-creation
order for non-integer-like string keys. -/
def objSet {α : Type} : List (String × α) → String → α → List (String × α)
  | [], k, v => [(k, v)]
  | (k', v') :: rest, k, v =>
    if k' = k then (k', v) :: rest else (k', v') :: objSet rest k v

/-- Member access `v.k` on an arbitrary value: `undefined` unless `v` is an
object carrying the key. -/
def vGet (v : Value) (k : String) : Value :=
  match v with
  | .vObj l => (objGet l k).getD .vUndefined
  | _ => .vUndefined

/-- The ECMAScript whitespace class: the characters matched by the regex
`\s`, skipped by `parseFloat`/`Number`, and removed by `String.prototype.trim`. -/
def isJsWs (c : Char) : Bool :=
  c = ' ' || c = '\t' || c = '\n' || c = '\r' || c = '\u000b' || c = '\u000c' ||
  c = '\u00a0' || c = '\u1680' || ('\u2000' ≤ c && c ≤ '\u200a') ||
  c = '\u2028' || c = '\u2029' || c = '\u202f' || c = '\u205f' ||
  c = '\u3000' || c = '\ufeff'

/-- `String.prototype.trim`: strip the JS whitespace class from both ends. -/
def jsTrim (s : String) : String :=
  ⟨((s.data.dropWhile isJsWs).reverse.dropWhile isJsWs).reverse⟩

/-- `String.prototype.toLowerCase` on the ASCII range (the header aliases
this library matches are all ASCII). -/
def jsToLower (s : String) : String :=
  ⟨s.data.map Char.toLower⟩

/-- Value of a list of decimal digit characters. -/
def decVal (ds : List Char) : Nat :=
  ds.foldl (fun a c => 10 * a + (c.toNat - 48)) 0

/-- An optional leading sign, returned together with the rest. -/
def parseSign : List Char → Int × List Char
  | '+' :: rest => (1, rest)
  | '-' :: rest => (-1, rest)
  | cs => (1, cs)

/-- An optional `ExponentPart` (`e`/`E`, sign, digits).  When the digits are
missing the `e` is not consumed, matching the longest-valid-prefix rule of
`parseFloat` and the all-or-nothing rule of `Number`. -/
def parseExponent (cs : List Char) : Int × List Char :=
  match cs with
  | c :: rest =>
    if c = 'e' ∨ c = 'E' then
      let sr := parseSign rest
      let ds := sr.2.takeWhile Char.isDigit
      if ds.isEmpty then (0, cs) else (sr.1 * (decVal ds : Int), sr.2.dropWhile Char.isDigit)
    else (0, cs)
  | [] => (0, cs)

/-- Longest unsigned `StrDecimalLiteral` prefix (digits, optional fraction,
optional exponent); `none` when not even one digit is present.  Returns the
exact value as an integer numerator with a power-of-ten denominator, and
the unconsumed remainder. -/
def parseDecLit (cs : List Char) : Option (Nat × Nat × List Char) :=
  let ip := cs.takeWhile Char.isDigit
  let cs1 := cs.dropWhile Char.isDigit
  let fr : List Char × List Char :=
    match cs1 with
    | '.' :: rest => (rest.takeWhile Char.isDigit, rest.dropWhile Char.isDigit)
    | _ => ([], cs1)
  if ip.isEmpty && fr.1.isEmpty then none
  else
    let er := parseExponent fr.2
    let num := decVal ip * 10 ^ fr.1.length + decVal fr.1
    if 0 ≤ er.1 then some (num * 10 ^ er.1.toNat, 10 ^ fr.1.length, er.2)
    else some (num, 10 ^ fr.1.length * 10 ^ (-er.1).toNat, er.2)

/-- The global `parseFloat`: skip leading whitespace, optional sign,
`Infinity` or the longest decimal-literal prefix; `NaN` when nothing
numeric leads the string. -/
def jsParseFloat (s : String) : Value :=
  let cs := s.data.dropWhile isJsWs
  let sr := parseSign cs
  if sr.2.take 8 = "Infinity".data then (if sr.1 = 1 then .vInf else .vNegInf)
  else
    match parseDecLit sr.2 with
    | some qr => .vNum (mkRat (sr.1 * qr.1) qr.2.1)
    | none => .vNaN

/-- Is `c` a hexadecimal digit? -/
def isHexDigit (c : Char) : Bool :=
  c.isDigit || ('a' ≤ c && c ≤ 'f') || ('A' ≤ c && c ≤ 'F')

/-- Numeric value of a hexadecimal digit. -/
def hexVal (c : Char) : Nat :=
  if c.isDigit then c.toNat - 48
  else if 'a' ≤ c ∧ c ≤ 'f' then c.toNat - 87
  else c.toNat - 55

/-- Radix-`b` digits, all-or-nothing (used for `0x`, `0o`, `0b` literals). -/
def radixVal (b : Nat) (digOk : Char → Bool) (digVal : Char → Nat) (ds : List Char) : Value :=
  if ds.isEmpty then .vNaN
  else if ds.all digOk then .vNum ((ds.foldl (fun a c => b * a + digVal c) 0 : Nat) : Rat)
  else .vNaN

/-- Signed decimal `StringNumericLiteral` requiring the whole string to be
consumed (the tail of `ToNumber` on strings). -/
def toNumDec (cs : List Char) : Value :=
  let sr := parseSign cs
  if sr.2 = "Infinity".data then (if sr.1 = 1 then .vInf else .vNegInf)
  else
    match parseDecLit sr.2 with
    | some qr => if qr.2.2.isEmpty then .vNum (mkRat (sr.1 * qr.1) qr.2.1) else .vNaN
    | none => .vNaN

/-- ECMAScript `ToNumber` on a string (what `isNaN(cell)` applies): trim,
empty means `0`, unsigned `0x`/`0o`/`0b` literals, otherwise a signed
decimal literal or `Infinity` consuming the whole string — else `NaN`. -/
def jsToNumberStr (s : String) : Value :=
  let cs := ((s.data.dropWhile isJsWs).reverse.dropWhile isJsWs).reverse
  match cs with
  | [] => .vNum 0
  | '0' :: x :: rest =>
    if x = 'x' ∨ x = 'X' then radixVal 16 isHexDigit hexVal rest
    else if x = 'o' ∨ x = 'O' then radixVal 8 (fun c => '0' ≤ c && c ≤ '7') (fun c => c.toNat - 48) rest
    else if x = 'b' ∨ x = 'B' then radixVal 2 (fun c => c = '0' || c = '1') (fun c => c.toNat - 48) rest
    else toNumDec cs
  | _ => toNumDec cs

/-- ECMAScript `ToNumber` restricted to the value shapes the library feeds
it (`new Date(v)` on a non-string); `none` models `NaN`.  `ToPrimitive`
coercion of arrays/objects is not modelled — they are treated as invalid
dates, a corner no claim touches. -/
def jsToNumber : Value → Option Rat
  | .vNull => some 0
  | .vBool b => some (if b then 1 else 0)
  | .vNum q => some q
  | .vStr s =>
    match jsToNumberStr s with
    | .vNum q => some q
    | _ => none
  | _ => none

/-! ### `convertFieldName` and the CSV pipeline

Transcribed from `src/index.js`:

    function convertFieldName(name) {
        const regex = new RegExp(/\.|\(|\)/g)
        return name.replace(regex, '').replace(/\s/g, '_')
    }
-/

/-- Drop every `.`, `(`, `)` and then replace each `\s` character by `_`
(`convertFieldName`). -/
def convertFieldName (name : String) : String :=
  ⟨(name.data.filter (fun c => !(c == '.' || c == '(' || c == ')'))).map
    (fun c => if isJsWs c then '_' else c)⟩

/-- Sanitize each header of the header row (`csvFieldNames`). -/
def csvFieldNames (inFields : List String) : List String :=
  inFields.map convertFieldName

/-- Latitude header aliases (`isLatitudeField`): trimmed, lowercased
membership test. -/
def isLatitudeField (fieldName : String) : Bool :=
  ["lat", "latitude", "latitude_deg", "y"].contains (jsToLower (jsTrim fieldName))

/-- Longitude header aliases (`isLongitudeField`). -/
def isLongitudeField (fieldName : String) : Bool :=
  ["lon", "longitude", "longitude_deg", "x"].contains (jsToLower (jsTrim fieldName))

/-- A CSV Point geometry `{ type: 'Point', coordinates: [c0, c1] }`; the
source builds the two-slot coordinate array directly, so the pair is the
array. -/
structure Geometry where
  gtype : String
  coordinates : Value × Value

/-- The string `feature.slice(i)` coerces to when passed to `parseFloat`:
the JS array-to-string join of the row's tail with `,`. -/
def sliceJoin (row : List String) (i : Nat) : String :=
  String.intercalate "," (row.drop i)

/-- `validGeometry`: the `coordinates.length === 2` conjunct is always true
in the pair model; the rest is truthiness of both slots. -/
def validGeometry (g : Geometry) : Bool :=
  truthy g.coordinates.1 && truthy g.coordinates.2

/-- One `_.map(fieldNames, ...)` step of `convertCSVGeom`: a longitude
header overwrites slot 0, otherwise a latitude header overwrites slot 1. -/
def csvGeomStep (row : List String) (acc : Value × Value) (p : Nat × String) : Value × Value :=
  if isLongitudeField p.2 then (jsParseFloat (sliceJoin row p.1), acc.2)
  else if isLatitudeField p.2 then (acc.1, jsParseFloat (sliceJoin row p.1))
  else acc

/-- `convertCSVGeom`: scan all (sanitized) headers, the last matching column
of each axis winning its slot, starting from `[null, null]`; return the
Point only when `validGeometry` holds, else `null` (`none`). -/
def convertCSVGeom (fieldNames : List String) (row : List String) : Option Geometry :=
  let c := fieldNames.enum.foldl (csvGeomStep row) (.vNull, .vNull)
  if validGeometry ⟨"Point", c⟩ then some ⟨"Point", c⟩ else none

/-- `constructProps`: for every (sanitized) header, coerce the cell with
`(!isNaN(cell)) ? parseFloat(cell) : cell`; a missing cell of a ragged row
is `undefined` (and `isNaN(undefined)` is true, so it stays `undefined`). -/
def constructProps (fieldNames : List String) (row : List String) : List (String × Value) :=
  fieldNames.enum.foldl
    (fun acc p =>
      let v : Value :=
        match row.get? p.1 with
        | some cell =>
          match jsToNumberStr cell with
          | .vNaN => .vStr cell
          | _ => jsParseFloat cell
        | none => .vUndefined
      objSet acc p.2 v) []

/-- A GeoJSON feature produced by `fromCSV`. -/
structure CSVFeature where
  ftype : String
  id : Nat
  properties : List (String × Value)
  geometry : Option Geometry

/-- A `fromCSV` FeatureCollection. -/
structure CSVCollection where
  ftype : String
  features : List CSVFeature

/-- `toGeoJSON.fromCSV`: row 0 is the header row (sanitized by
`csvFieldNames`); every later row becomes a feature with 0-based id `key`,
properties from `constructProps` with `properties.OBJECTID = key` assigned
afterwards (unconditionally), and geometry from `convertCSVGeom`. -/
def fromCSV (csv : List (List String)) : CSVCollection :=
  let fieldNames := csvFieldNames (csv.headD [])
  let features := csv.drop 1
  { ftype := "FeatureCollection"
    features := features.enum.map (fun p =>
      { ftype := "Feature"
        id := p.1
        properties := objSet (constructProps fieldNames p.2) "OBJECTID" (.vNum p.1)
        geometry := convertCSVGeom fieldNames p.2 }) }

/-! ### The `fromEsri` pipeline -/

/-- One `{name, code}` entry of a coded-value domain. -/
structure CodedValue where
  cvName : Value
  code : Value

/-- A field's domain; `dtype` is the source's `domain.type`, `codedValues`
absent is the empty list. -/
structure Domain where
  dtype : String
  codedValues : List CodedValue

/-- An input field descriptor `{name, type?, domain?}`; `ftype` is the
source's `field.type` (`none` when absent). -/
structure Field where
  name : String
  ftype : Option String := none
  domain : Option Domain := none

/-- A catalog entry: the descriptor enriched in place with `outName`
(`field.outName = convertFieldName(field.name)`). -/
structure OutField where
  name : String
  ftype : Option String
  domain : Option Domain
  outName : String

/-- `convertFields`: build the name-keyed catalog; a duplicate `name`
silently overwrites the earlier entry. -/
def convertFields (infields : List Field) : List (String × OutField) :=
  infields.foldl
    (fun acc f => objSet acc f.name ⟨f.name, f.ftype, f.domain, convertFieldName f.name⟩) []

/-- `cvd`: `_.find(field.domain.codedValues, d => value === d.code)` — first
entry (in list order) whose `code` is strictly equal, returning its `name`;
otherwise the raw value.  Total on a missing domain/codedValues list. -/
def cvd (value : Value) (field : OutField) : Value :=
  match field.domain with
  | some d =>
    match d.codedValues.find? (fun e => strictEq value e.code) with
    | some e => e.cvName
    | none => value
  | none => value

/-- The maximal `Date` time value, `8.64e15` epoch milliseconds
(`TimeClip`). -/
def msLimit : Int := 8640000000000000

/-- `ToIntegerOrInfinity` on a finite number: truncation toward zero. -/
def ratTrunc (q : Rat) : Int :=
  q.num.tdiv (q.den : Int)

/-- Civil date (proleptic Gregorian, as `Date` uses) from days since the
epoch 1970-01-01: `(year, month, day)`. -/
def civilFromDays (z : Int) : Int × Nat × Nat :=
  let z' := z + 719468
  let era := Int.ediv z' 146097
  let doe := (z' - era * 146097).toNat
  let yoe := (doe - doe / 1460 + doe / 36524 - doe / 146096) / 365
  let y := (yoe : Int) + era * 400
  let doy := doe - (365 * yoe + yoe / 4 - yoe / 100)
  let mp := (5 * doy + 2) / 153
  let d := doy - (153 * mp + 2) / 5 + 1
  let m := if mp < 10 then mp + 3 else mp - 9
  (if m ≤ 2 then y + 1 else y, m, d)

/-- Decimal rendering of `n`, left-padded with zeros to width `w`. -/
def pad (w n : Nat) : String :=
  let s := toString n
  ⟨List.replicate (w - s.length) '0'⟩ ++ s

/-- `Date.prototype.toISOString` of a clipped integral time value: UTC
calendar fields in `YYYY-MM-DDTHH:mm:ss.sssZ`, with the expanded-year
`±YYYYYY` form outside `0000`–`9999`. -/
def isoOfMs (ms : Int) : String :=
  let days := Int.ediv ms 86400000
  let r := (Int.emod ms 86400000).toNat
  let ymd := civilFromDays days
  let y := ymd.1
  let ys :=
    if 0 ≤ y ∧ y ≤ 9999 then pad 4 y.toNat
    else if 9999 < y then "+" ++ pad 6 y.toNat
    else "-" ++ pad 6 (-y).toNat
  ys ++ "-" ++ pad 2 ymd.2.1 ++ "-" ++ pad 2 ymd.2.2 ++ "T" ++
    pad 2 (r / 3600000) ++ ":" ++ pad 2 (r % 3600000 / 60000) ++ ":" ++
    pad 2 (r % 60000 / 1000) ++ "." ++ pad 3 (r % 1000) ++ "Z"

/-- `new Date(inValue).toISOString()`; `none` models a throw (invalid
date).  Strings go through the host's implementation-defined date-string
parsing, the `sparse` parameter, which yields the parsed time value;
everything else goes through `ToNumber` and `TimeClip`. -/
def jsDateToISO (sparse : String → Option Int) (v : Value) : Option String :=
  match v with
  | .vStr s =>
    match sparse s with
    | some t => if t.natAbs ≤ msLimit.toNat then some (isoOfMs t) else none
    | none => none
  | _ =>
    match jsToNumber v with
    | some q => if |q| ≤ mkRat msLimit 1 then some (isoOfMs (ratTrunc q)) else none
    | none => none

/-- `convertAttribute`: `null` passes through; a `codedValue` domain decodes
via `cvd`; an `esriFieldTypeDate` field converts to an ISO string, falling
back to the raw value when `toISOString` throws; everything else is
unchanged.  `inValue` is `attribute[field.name]`, which the caller builds
as the single-entry object `{name: value}`. -/
def convertAttribute (sparse : String → Option Int) (inValue : Value) (field : OutField) : Value :=
  match inValue with
  | .vNull => .vNull
  | _ =>
    if (match field.domain with
        | some d => d.dtype == "codedValue"
        | none => false) then
      cvd inValue field
    else if field.ftype == some "esriFieldTypeDate" then
      match jsDateToISO sparse inValue with
      | some s => .vStr s
      | none => inValue
    else inValue

/-- `parseGeometry`: inside one `try`, a falsy source geometry yields
`null`; otherwise the external `arcgisToGeoJSON` (`conv`; `.error` models a
throw) runs, and its result is kept only when it, its `.type` and its
`.coordinates` are all truthy — otherwise `null`.  The `catch` turns any
throw into `null`, so the function is total. -/
def parseGeometry (conv : Value → Except Unit Value) (geometry : Value) : Value :=
  match (if truthy geometry then conv geometry else .ok .vNull) with
  | .error _ => .vNull
  | .ok parsed =>
    if truthy parsed && truthy (vGet parsed "type") && truthy (vGet parsed "coordinates") then
      parsed
    else .vNull

/-- A source Esri feature `{attributes?, geometry?}`; `none` covers both an
absent and a `null` attributes member (both falsy). -/
structure EsriFeature where
  attributes : Option (List (String × Value)) := none
  geometry : Value := .vNull

/-- A GeoJSON feature produced by `fromEsri`. -/
structure Feature where
  ftype : String
  properties : List (String × Value)
  geometry : Value

/-- `transformFeature`: when `attributes` is truthy, fold its keys: a key
with a catalog entry stores `convertAttribute` of its value under the
entry's `outName`; a key without one throws on `.outName`, is caught, and
is dropped.  The feature wraps the result with `parseGeometry`. -/
def transformFeature (conv : Value → Except Unit Value) (sparse : String → Option Int)
    (feature : EsriFeature) (fields : List (String × OutField)) : Feature :=
  let attributes :=
    match feature.attributes with
    | none => []
    | some m =>
      (m.map Prod.fst).foldl
        (fun acc name =>
          match objGet fields name with
          | some f =>
            objSet acc f.outName (convertAttribute sparse ((objGet m name).getD .vUndefined) f)
          | none => acc) []
  { ftype := "Feature", properties := attributes, geometry := parseGeometry conv feature.geometry }

/-- The whole Esri payload `{fields?, features?}` (each absent member is the
empty list). -/
structure EsriPayload where
  fields : List Field := []
  features : List EsriFeature := []

/-- The `options` argument of `fromEsri` as the source inspects it: outer
`none` is a falsy `options` (replaced by `{}`), inner `none` is a falsy
`options.fields` (absent/null).  An array — even `[]` — is truthy. -/
abbrev EsriOptions := Option (Option (List Field))

/-- The field list `fromEsri` ends up converting: `options.fields` whenever
it is truthy (an empty array included), else `esriJSON.fields` — the two
`if (!...)` guards of the source. -/
def effectiveFields (payload : EsriPayload) (options : EsriOptions) : List Field :=
  match options with
  | some (some l) => l
  | some none => payload.fields
  | none => payload.fields

/-- A `fromEsri` FeatureCollection. -/
structure FeatureCollection where
  ftype : String
  features : List Feature

/-- `toGeoJSON.fromEsri`: resolve the field list, build the catalog once,
and map every payload feature through `transformFeature`. -/
def fromEsri (conv : Value → Except Unit Value) (sparse : String → Option Int)
    (esriJSON : EsriPayload) (options : EsriOptions) : FeatureCollection :=
  let fields := convertFields (effectiveFields esriJSON options)
  { ftype := "FeatureCollection"
    features := esriJSON.features.map (fun feature => transformFeature conv sparse feature fields) }

/-! ### Auxiliary definitions used by the theorems -/

/-- The amended sanitization rule, stated independently by single-character
recursion: drop `.`, `(`, `)`; replace each whitespace character by `_`. -/
def sanitizeSpec : List Char → List Char
  | [] => []
  | c :: cs =>
    if c = '.' ∨ c = '(' ∨ c = ')' then sanitizeSpec cs
    else (if isJsWs c then '_' else c) :: sanitizeSpec cs

/-- Index of the last indexed header satisfying `p` — the column the
source's repeated slot overwriting leaves in charge. -/
def lastMatchIdx (p : Nat × String → Bool) (l : List (Nat × String)) : Option Nat :=
  l.foldl (fun acc q => if p q then some q.1 else acc) none

/-- A trivial geometry converter used by concrete counterexamples (the
geometry plays no role there). -/
def conv0 : Value → Except Unit Value := fun _ => .ok .vNull

/-- A trivial date-string parser used by concrete witnesses (no claim feeds
a string to a date field there). -/
def sparse0 : String → Option Int := fun _ => none

/-- A plain field descriptor named `A` (no domain, no type tag). -/
def fldA : Field := { name := "A" }

/-- Payload with one field `A` and one feature carrying attribute `A = 1`. -/
def payload9 : EsriPayload :=
  { fields := [fldA], features := [{ attributes := some [("A", .vNum 1)] }] }

/-- Payload with a single feature whose `attributes` member is absent. -/
def payload10 : EsriPayload :=
  { fields := [], features := [{ attributes := none, geometry := .vNull }] }

/-- The feature `fromCSV [["x","y"],["1","2"]]` produces (used by a
witness). -/
def csvWitnessFeature : CSVFeature :=
  { ftype := "Feature", id := 0,
    properties := [("x", .vNum 1), ("y", .vNum 2), ("OBJECTID", .vNum 0)],
    geometry := some ⟨"Point", (.vNum 1, .vNum 2)⟩ }

/-- The coded-value domain of the repository's own test fixture (`NAME`,
codes `0`/`1` for `Name0`/`Name1`). -/
def domNAME : Domain :=
  { dtype := "codedValue",
    codedValues := [{ cvName := .vStr "Name0", code := .vNum 0 },
                    { cvName := .vStr "Name1", code := .vNum 1 }] }

/-- The enriched catalog entry for the `NAME` fixture field. -/
def fldNAME : OutField :=
  { name := "NAME", ftype := some "esriFieldTypeSmallInteger", domain := some domNAME,
    outName := "NAME" }

/-- An `esriFieldTypeDate` catalog entry without a domain. -/
def fldDate : OutField :=
  { name := "date", ftype := some "esriFieldTypeDate", domain := none, outName := "date" }

/-! ### Shared lemmas -/

theorem objGet_objSet_self {α : Type} (l : List (String × α)) (k : String) (v : α) :
    objGet (objSet l k v) k = some v := by
  induction l with
  | nil => simp [objSet, objGet]
  | cons h t ih =>
    obtain ⟨k', v'⟩ := h
    by_cases hk : k' = k
    · simp [objSet, objGet, hk]
    · simp [objSet, objGet, hk, ih]

theorem jsParseFloat_isNumber (s : String) : isNumber (jsParseFloat s) = true := by
  simp only [jsParseFloat]
  split
  · split <;> rfl
  · split <;> rfl

theorem truthy_ne_of_true {v : Value} (h : truthy v = true) :
    v ≠ .vNaN ∧ v ≠ .vNum 0 ∧ v ≠ .vNull ∧ v ≠ .vUndefined := by
  refine ⟨?_, ?_, ?_, ?_⟩ <;> rintro rfl <;> simp [truthy] at h

theorem csvGeom_foldl_fst (row : List String) (l : List (Nat × String)) (acc : Value × Value) :
    (l.foldl (csvGeomStep row) acc).1 =
      (lastMatchIdx (fun q => isLongitudeField q.2) l).elim acc.1
        (fun i => jsParseFloat (sliceJoin row i)) := by
  induction l using List.reverseRecOn with
  | nil => rfl
  | append_singleton t a ih =>
    simp only [lastMatchIdx, List.foldl_append, List.foldl_cons, List.foldl_nil] at ih ⊢
    by_cases hlon : isLongitudeField a.2
    · simp [csvGeomStep, hlon]
    · by_cases hlat : isLatitudeField a.2 <;> simp [csvGeomStep, hlon, hlat, ih]

theorem csvGeom_foldl_snd (row : List String) (l : List (Nat × String)) (acc : Value × Value) :
    (l.foldl (csvGeomStep row) acc).2 =
      (lastMatchIdx (fun q => !isLongitudeField q.2 && isLatitudeField q.2) l).elim acc.2
        (fun i => jsParseFloat (sliceJoin row i)) := by
  induction l using List.reverseRecOn with
  | nil => rfl
  | append_singleton t a ih =>
    simp only [lastMatchIdx, List.foldl_append, List.foldl_cons, List.foldl_nil] at ih ⊢
    by_cases hlon : isLongitudeField a.2
    · simp [csvGeomStep, hlon, ih]
    · by_cases hlat : isLatitudeField a.2 <;> simp [csvGeomStep, hlon, hlat, ih]

theorem lat_not_lon {f : String} (h : isLatitudeField f = true) :
    isLongitudeField f = false := by
  unfold isLatitudeField at h
  unfold isLongitudeField
  simp only [List.contains_eq_any_beq, List.any_cons, List.any_nil, Bool.or_false,
    Bool.or_eq_true, beq_iff_eq] at h ⊢
  rcases h with h | h | h | h <;> rw [h] <;> decide

theorem lastMatchIdx_lat_pred (l : List (Nat × String)) :
    lastMatchIdx (fun q => !isLongitudeField q.2 && isLatitudeField q.2) l =
      lastMatchIdx (fun q => isLatitudeField q.2) l := by
  unfold lastMatchIdx
  congr 1
  funext acc q
  by_cases hlat : isLatitudeField q.2
  · simp [hlat, lat_not_lon hlat]
  · simp [hlat]

theorem sanitize_chars (cs : List Char) :
    ((cs.filter (fun c => !(c == '.' || c == '(' || c == ')'))).map
        (fun c => if isJsWs c then '_' else c) = sanitizeSpec cs) ∧
    (((cs.filter (fun c => !(c == '.' || c == '(' || c == ')'))).map
        (fun c => if isJsWs c then '_' else c)).all
        (fun c => !(c == '.') && !(c == '(') && !(c == ')') && !(isJsWs c)) = true) := by
  induction cs with
  | nil => exact ⟨rfl, rfl⟩
  | cons c cs ih =>
    cases hb : (c == '.' || c == '(' || c == ')') with
    | true =>
      have hd : c = '.' ∨ c = '(' ∨ c = ')' := by
        simpa [or_assoc] using hb
      simp only [List.filter_cons, hb, Bool.not_true, sanitizeSpec, if_pos hd]
      exact ih
    | false =>
      have hd : ¬(c = '.' ∨ c = '(' ∨ c = ')') := by
        simpa [not_or, and_assoc] using hb
      simp only [List.filter_cons, hb, Bool.not_false, if_pos, List.map_cons, sanitizeSpec,
        if_neg hd, List.all_cons, Bool.and_eq_true]
      refine ⟨congrArg _ ih.1, ?_, ih.2⟩
      by_cases hw : isJsWs c
      · simp only [hw, ite_true]
        decide
      · have h1 : c ≠ '.' := fun h => hd (Or.inl h)
        have h2 : c ≠ '(' := fun h => hd (Or.inr (Or.inl h))
        have h3 : c ≠ ')' := fun h => hd (Or.inr (Or.inr h))
        simp [hw, h1, h2, h3]

/-- **C1** (amended, see the counterexample below): `outName` is the
original name with every `.`, `(`, `)` removed and then every whitespace
**character** replaced by `_` (the source's `/\s/g` replacement maps each
character of a whitespace run to its own `_`, it does not collapse the
run); in particular the result contains no `.`, `(`, `)` and no whitespace
character. -/
theorem outName_sanitization (name : String) :
    convertFieldName name = ⟨sanitizeSpec name.data⟩ ∧
    ((convertFieldName name).data.all
      (fun c => !(c == '.') && !(c == '(') && !(c == ')') && !(isJsWs c))) = true := by
  have h := sanitize_chars name.data
  exact ⟨congrArg String.mk h.1, h.2⟩

/-- **C1 counterexample**: the claim says every whitespace *run* becomes a
single `_`, so the name `"a  b"` (two spaces) would sanitize to `"a_b"`;
the code produces `"a__b"`. -/
theorem outName_run_collapse_counterexample :
    convertFieldName "a  b" ≠ "a_b" := by decide

theorem convertCSVGeom_some_slots {fieldNames row : List String} {g : Geometry}
    (h : convertCSVGeom fieldNames row = some g) :
    g.gtype = "Point" ∧
    truthy g.coordinates.1 = true ∧ truthy g.coordinates.2 = true ∧
    (∃ i, lastMatchIdx (fun q => isLongitudeField q.2) fieldNames.enum = some i ∧
          g.coordinates.1 = jsParseFloat (sliceJoin row i)) ∧
    (∃ j, lastMatchIdx (fun q => isLatitudeField q.2) fieldNames.enum = some j ∧
          g.coordinates.2 = jsParseFloat (sliceJoin row j)) := by
  simp only [convertCSVGeom] at h
  split at h
  case isTrue hv =>
    injection h with h
    subst h
    simp only [validGeometry, Bool.and_eq_true] at hv
    have h1 := csvGeom_foldl_fst row fieldNames.enum (Value.vNull, Value.vNull)
    have h2 := csvGeom_foldl_snd row fieldNames.enum (Value.vNull, Value.vNull)
    rw [lastMatchIdx_lat_pred] at h2
    refine ⟨rfl, hv.1, hv.2, ?_, ?_⟩
    · cases hm : lastMatchIdx (fun q => isLongitudeField q.2) fieldNames.enum with
      | none =>
        rw [hm] at h1
        simp only [Option.elim] at h1
        have hv1 := hv.1
        rw [h1] at hv1
        simp [truthy] at hv1
      | some i =>
        rw [hm] at h1
        simp only [Option.elim] at h1
        exact ⟨i, rfl, h1⟩
    · cases hm : lastMatchIdx (fun q => isLatitudeField q.2) fieldNames.enum with
      | none =>
        rw [hm] at h2
        simp only [Option.elim] at h2
        have hv2 := hv.2
        rw [h2] at hv2
        simp [truthy] at hv2
      | some j =>
        rw [hm] at h2
        simp only [Option.elim] at h2
        exact ⟨j, rfl, h2⟩
  case isFalse => exact Option.noConfusion h

/-- **C2**: a `fromCSV` feature's geometry is non-null only when both
coordinate slots hold a non-NaN, non-null, non-zero numeric value — and a
coordinate cell equal to exactly `0` nulls the geometry (second conjunct,
headers `["x","y"]`, row `["0","5"]`). -/
theorem csv_geometry_nonzero :
    (∀ (csv : List (List String)) (feat : CSVFeature), feat ∈ (fromCSV csv).features →
      ∀ g : Geometry, feat.geometry = some g →
        (isNumber g.coordinates.1 = true ∧ g.coordinates.1 ≠ .vNaN ∧
          g.coordinates.1 ≠ .vNull ∧ g.coordinates.1 ≠ .vNum 0) ∧
        (isNumber g.coordinates.2 = true ∧ g.coordinates.2 ≠ .vNaN ∧
          g.coordinates.2 ≠ .vNull ∧ g.coordinates.2 ≠ .vNum 0)) ∧
    (fromCSV [["x", "y"], ["0", "5"]]).features.map (fun f => f.geometry) = [none] := by
  constructor
  · intro csv feat hmem g hg
    simp only [fromCSV, List.mem_map] at hmem
    obtain ⟨p, _, rfl⟩ := hmem
    have h := convertCSVGeom_some_slots hg
    obtain ⟨i, _, hi⟩ := h.2.2.2.1
    obtain ⟨j, _, hj⟩ := h.2.2.2.2
    have t1 := truthy_ne_of_true h.2.1
    have t2 := truthy_ne_of_true h.2.2.1
    refine ⟨⟨?_, t1.1, t1.2.2.1, t1.2.1⟩, ⟨?_, t2.1, t2.2.2.1, t2.2.1⟩⟩
    · rw [hi]; exact jsParseFloat_isNumber _
    · rw [hj]; exact jsParseFloat_isNumber _
  · rfl

/-- **C2 witness**: the general part applied to headers `["x","y"]` and row
`["1","2"]`, whose geometry is `some ⟨Point, (1, 2)⟩`. -/
theorem csv_geometry_nonzero_witness :
    (isNumber (Value.vNum 1) = true ∧ Value.vNum 1 ≠ .vNaN ∧
      Value.vNum 1 ≠ .vNull ∧ Value.vNum 1 ≠ .vNum 0) ∧
    (isNumber (Value.vNum 2) = true ∧ Value.vNum 2 ≠ .vNaN ∧
      Value.vNum 2 ≠ .vNull ∧ Value.vNum 2 ≠ .vNum 0) :=
  csv_geometry_nonzero.1 [["x", "y"], ["1", "2"]] csvWitnessFeature
    (by
      have h : (fromCSV [["x", "y"], ["1", "2"]]).features = [csvWitnessFeature] := rfl
      rw [h]
      exact List.mem_singleton_self _)
    ⟨"Point", (.vNum 1, .vNum 2)⟩ rfl

/-- **C3 counterexample**: with duplicate longitude headers
`["x","x","y"]` and row `["1","2","3"]` the claim ("the first matching
column is used") predicts coordinates `[1, 3]`; the code overwrites the
slot on every match, so the **last** matching column wins and the produced
geometry is `[2, 3]`. -/
theorem csv_first_column_counterexample :
    (fromCSV [["x", "x", "y"], ["1", "2", "3"]]).features.map (fun f => f.geometry) =
      [some ⟨"Point", (.vNum 2, .vNum 3)⟩] ∧
    some (Geometry.mk "Point" (.vNum 2, .vNum 3)) ≠
      some (Geometry.mk "Point" (.vNum 1, .vNum 3)) := by
  refine ⟨rfl, ?_⟩
  intro h
  simp only [Option.some.injEq, Geometry.mk.injEq, Prod.mk.injEq, Value.vNum.injEq] at h
  exact absurd h.2.1 (by norm_num)

/-- **C3** (amended): the longitude slot comes from the **last** column
whose sanitized header (the `fromCSV` pipeline sanitizes headers before
matching, so embedded whitespace has already become `_`), trimmed and
lowercased, is one of `lon`/`longitude`/`longitude_deg`/`x`, and likewise
the latitude slot from the last `lat`/`latitude`/`latitude_deg`/`y` column
(the alias sets are disjoint); coordinates are listed `[lon, lat]`: headers
`["y","x"]` with row `["-180","90"]` yield `Point [90, -180]`. -/
theorem csv_last_match_wins :
    (∀ (fieldNames row : List String) (g : Geometry),
        convertCSVGeom fieldNames row = some g →
          g.gtype = "Point" ∧
          (∃ i, lastMatchIdx (fun q => isLongitudeField q.2) fieldNames.enum = some i ∧
                g.coordinates.1 = jsParseFloat (sliceJoin row i)) ∧
          (∃ j, lastMatchIdx (fun q => isLatitudeField q.2) fieldNames.enum = some j ∧
                g.coordinates.2 = jsParseFloat (sliceJoin row j))) ∧
    (fromCSV [["y", "x"], ["-180", "90"]]).features.map (fun f => f.geometry) =
      [some ⟨"Point", (.vNum 90, .vNum (-180))⟩] := by
  constructor
  · intro fieldNames row g h
    have hs := convertCSVGeom_some_slots h
    exact ⟨hs.1, hs.2.2.2.1, hs.2.2.2.2⟩
  · rfl

/-- **C3 witness**: the general part applied to sanitized headers
`["y","x"]` and row `["-180","90"]`. -/
theorem csv_last_match_wins_witness :
    (Geometry.mk "Point" (.vNum 90, .vNum (-180))).gtype = "Point" ∧
    (∃ i, lastMatchIdx (fun q => isLongitudeField q.2) (["y", "x"] : List String).enum = some i ∧
          (Geometry.mk "Point" (.vNum 90, .vNum (-180))).coordinates.1 =
            jsParseFloat (sliceJoin ["-180", "90"] i)) ∧
    (∃ j, lastMatchIdx (fun q => isLatitudeField q.2) (["y", "x"] : List String).enum = some j ∧
          (Geometry.mk "Point" (.vNum 90, .vNum (-180))).coordinates.2 =
            jsParseFloat (sliceJoin ["-180", "90"] j)) :=
  csv_last_match_wins.1 ["y", "x"] ["-180", "90"]
    ⟨"Point", (.vNum 90, .vNum (-180))⟩ rfl

/-- **C4**: with a coded-value domain, `null` passes through untouched; a
non-null value is decoded to the `name` of the first domain entry (in list
order) whose `code` is strictly equal (`===`), and passes through unchanged
when no entry matches. -/
theorem coded_domain_decode (sparse : String → Option Int) (field : OutField) (d : Domain)
    (hdom : field.domain = some d) (hcv : d.dtype = "codedValue") :
    convertAttribute sparse .vNull field = .vNull ∧
    ∀ v : Value, v ≠ .vNull →
      convertAttribute sparse v field =
        (match d.codedValues.find? (fun e => strictEq v e.code) with
         | some e => e.cvName
         | none => v) := by
  constructor
  · rfl
  · intro v hv
    cases v <;> first
      | exact absurd rfl hv
      | simp [convertAttribute, cvd, hdom, hcv]

/-- **C4 witness**: the repository's test fixture — code `1` decodes to
`Name1`, the unmatched code `7` passes through, `null` stays `null`. -/
theorem coded_domain_decode_witness :
    convertAttribute sparse0 .vNull fldNAME = .vNull ∧
    convertAttribute sparse0 (.vNum 1) fldNAME = .vStr "Name1" ∧
    convertAttribute sparse0 (.vNum 7) fldNAME = .vNum 7 := by
  have h := coded_domain_decode sparse0 fldNAME domNAME rfl rfl
  refine ⟨h.1, ?_, ?_⟩
  · rw [h.2 (.vNum 1) (fun hh => Value.noConfusion hh)]
    rfl
  · rw [h.2 (.vNum 7) (fun hh => Value.noConfusion hh)]
    rfl

/-- **C5**: geometry parsing is total (the `try/catch` keeps any converter
throw inside), and the converted geometry is returned only when it is
truthy with a truthy `type` (a non-empty string when a string) and a
present truthy `coordinates` member; in every other case — falsy/absent
input, converter throw, failed shape check — the result is `null`. -/
theorem parseGeometry_no_error (conv : Value → Except Unit Value) (g : Value) :
    parseGeometry conv g = .vNull ∨
      ∃ parsed, truthy g = true ∧ conv g = .ok parsed ∧ parseGeometry conv g = parsed ∧
        truthy (vGet parsed "type") = true ∧
        (∀ s, vGet parsed "type" = .vStr s → s ≠ "") ∧
        vGet parsed "coordinates" ≠ .vUndefined := by
  by_cases hg : truthy g = true
  · cases hc : conv g with
    | error e =>
      left
      simp [parseGeometry, hg, hc]
    | ok parsed =>
      by_cases h1 :
          (truthy parsed && truthy (vGet parsed "type") && truthy (vGet parsed "coordinates"))
            = true
      · right
        refine ⟨parsed, hg, rfl, ?_, ?_, ?_, ?_⟩
        · simp [parseGeometry, hg, hc, h1]
        · simp only [Bool.and_eq_true] at h1
          exact h1.1.2
        · intro s hs
          simp only [Bool.and_eq_true] at h1
          have ht := h1.1.2
          rw [hs] at ht
          intro hempty
          subst hempty
          simp only [truthy] at ht
          exact absurd ht (by decide)
        · simp only [Bool.and_eq_true] at h1
          intro hu
          rw [hu] at h1
          simp [truthy] at h1
      · left
        simp [parseGeometry, hg, hc, h1]
  · left
    simp only [Bool.not_eq_true] at hg
    simp only [parseGeometry, hg]
    rfl

/-- **C6**: `fromEsri` maps exactly the payload's features, in order: the
output has the same length and the `i`-th output feature is
`transformFeature` of the `i`-th input feature (over the catalog built from
the resolved field list). -/
theorem fromEsri_order_preserved (conv : Value → Except Unit Value)
    (sparse : String → Option Int) (payload : EsriPayload) (options : EsriOptions) :
    (fromEsri conv sparse payload options).features.length = payload.features.length ∧
    ∀ i : Nat, (fromEsri conv sparse payload options).features[i]? =
      (payload.features[i]?).map
        (fun f => transformFeature conv sparse f
          (convertFields (effectiveFields payload options))) := by
  constructor
  · simp [fromEsri]
  · intro i
    simp [fromEsri, List.getElem?_map]

/-- **C7 counterexample**: a CSV with an existing `OBJECTID` column (value
`99` in row 0) still ends up with `OBJECTID = 0` — the source assigns
`feature.properties.OBJECTID = key` unconditionally, overwriting the
pre-existing value the claim says is never overwritten. -/
theorem objectid_overwrite_counterexample :
    (fromCSV [["OBJECTID", "x", "y"], ["99", "1", "2"]]).features.map
        (fun f => objGet f.properties "OBJECTID") = [some (.vNum 0)] ∧
    some (Value.vNum 0) ≠ some (Value.vNum 99) := by
  refine ⟨rfl, ?_⟩
  intro h
  simp only [Option.some.injEq, Value.vNum.injEq] at h
  exact absurd h (by norm_num)

/-- **C7** (amended): every `fromCSV` feature carries a synthetic
`OBJECTID` property equal to its 0-based data-row index (also its `id`),
assigned unconditionally — a pre-existing `OBJECTID` column value is
overwritten. -/
theorem objectid_row_index (csv : List (List String)) (i : Nat) (feat : CSVFeature)
    (h : (fromCSV csv).features[i]? = some feat) :
    feat.id = i ∧ objGet feat.properties "OBJECTID" = some (.vNum i) := by
  simp only [fromCSV, List.getElem?_map] at h
  cases he : (csv.drop 1).enum[i]? with
  | none => rw [he] at h; exact Option.noConfusion h
  | some p =>
    rw [he] at h
    rw [List.getElem?_enum] at he
    cases ha : (csv.drop 1)[i]? with
    | none => rw [ha] at he; exact Option.noConfusion he
    | some row =>
      rw [ha] at he
      injection he with he
      subst he
      injection h with h
      subst h
      exact ⟨rfl, objGet_objSet_self _ _ _⟩

/-- **C7 witness**: the single-column sheet `[["OBJECTID"],["99"]]`. -/
theorem objectid_row_index_witness :
    (CSVFeature.mk "Feature" 0 [("OBJECTID", .vNum 0)] none).id = 0 ∧
    objGet (CSVFeature.mk "Feature" 0 [("OBJECTID", .vNum 0)] none).properties "OBJECTID" =
      some (.vNum 0) :=
  objectid_row_index [["OBJECTID"], ["99"]] 0 ⟨"Feature", 0, [("OBJECTID", .vNum 0)], none⟩ rfl

/-- **C8**: for a date-typed field with no coded-value domain: `null` stays
`null` (never an epoch-zero date); an in-range numeric epoch value becomes
the ISO-8601 UTC string of its truncated milliseconds; an out-of-range
number (`toISOString` throws) falls back to the raw value; a parseable date
string becomes the ISO string of its parsed time value, an unparseable one
falls back unchanged — no case propagates an error. -/
theorem date_field_iso (sparse : String → Option Int) (field : OutField)
    (hdate : field.ftype = some "esriFieldTypeDate")
    (hdom : ∀ d, field.domain = some d → d.dtype ≠ "codedValue") :
    convertAttribute sparse .vNull field = .vNull ∧
    (∀ q : Rat, |q| ≤ mkRat msLimit 1 →
      convertAttribute sparse (.vNum q) field = .vStr (isoOfMs (ratTrunc q))) ∧
    (∀ q : Rat, mkRat msLimit 1 < |q| →
      convertAttribute sparse (.vNum q) field = .vNum q) ∧
    (∀ s t, sparse s = some t → t.natAbs ≤ msLimit.toNat →
      convertAttribute sparse (.vStr s) field = .vStr (isoOfMs t)) ∧
    (∀ s, sparse s = none → convertAttribute sparse (.vStr s) field = .vStr s) := by
  have hcond : (match field.domain with
      | some d => d.dtype == "codedValue"
      | none => false) = false := by
    cases hd : field.domain with
    | none => rfl
    | some d => exact beq_eq_false_iff_ne.mpr (hdom d hd)
  have key : ∀ v : Value, v ≠ .vNull →
      convertAttribute sparse v field =
        (match jsDateToISO sparse v with
         | some s => .vStr s
         | none => v) := by
    intro v hv
    cases v <;> first
      | exact absurd rfl hv
      | simp [convertAttribute, hcond, hdate]
  refine ⟨rfl, ?_, ?_, ?_, ?_⟩
  · intro q hq
    rw [key _ (fun hh => Value.noConfusion hh)]
    simp only [jsDateToISO, jsToNumber]
    rw [if_pos hq]
  · intro q hq
    rw [key _ (fun hh => Value.noConfusion hh)]
    simp only [jsDateToISO, jsToNumber]
    rw [if_neg (not_le.mpr hq)]
  · intro s t hsp ht
    rw [key _ (fun hh => Value.noConfusion hh)]
    simp only [jsDateToISO, hsp]
    rw [if_pos ht]
  · intro s hsp
    rw [key _ (fun hh => Value.noConfusion hh)]
    simp only [jsDateToISO, hsp]

/-- **C8 witness**: the repository's date fixture — epoch `1432147670000`
converts to `2015-05-20T18:47:50.000Z`; `null` stays `null`. -/
theorem date_field_iso_witness :
    convertAttribute sparse0 (.vNum 1432147670000) fldDate =
      .vStr "2015-05-20T18:47:50.000Z" ∧
    convertAttribute sparse0 .vNull fldDate = .vNull := by
  have h := date_field_iso sparse0 fldDate rfl (fun d hd => Option.noConfusion hd)
  refine ⟨?_, h.1⟩
  rw [h.2.1 1432147670000 (by decide)]
  rfl

/-- **C9 counterexample**: with `options.fields = []` — supplied but empty —
the claim predicts a fallback to `payload.fields`, which would keep
attribute `A = 1`; the code tests only falsiness and an empty JS array is
truthy, so the empty list is used, the catalog is empty, and the attribute
is dropped. -/
theorem options_empty_fields_counterexample :
    (fromEsri conv0 sparse0 payload9 (some (some []))).features.map (fun f => f.properties) =
      [[]] ∧
    ([] : List (String × Value)) ≠ [("A", Value.vNum 1)] := by
  refine ⟨rfl, ?_⟩
  intro h
  exact List.noConfusion h

/-- **C9** (amended): the effective field list is `options.fields` whenever
the member is present (truthy) — an empty list included — and falls back to
`payload.fields` exactly when `options` or `options.fields` is
absent/null. -/
theorem options_fields_resolution (conv : Value → Except Unit Value)
    (sparse : String → Option Int) (payload : EsriPayload) :
    (∀ l : List Field, (fromEsri conv sparse payload (some (some l))).features =
      payload.features.map (fun f => transformFeature conv sparse f (convertFields l))) ∧
    ((fromEsri conv sparse payload (some none)).features =
      payload.features.map
        (fun f => transformFeature conv sparse f (convertFields payload.fields))) ∧
    ((fromEsri conv sparse payload none).features =
      payload.features.map
        (fun f => transformFeature conv sparse f (convertFields payload.fields))) :=
  ⟨fun _ => rfl, rfl, rfl⟩

/-- **C10**: an Esri feature whose `attributes` member is absent or `null`
still yields a Feature, with empty properties and the geometry computed as
usual — the conversion does not fail on it. -/
theorem null_attributes_feature (conv : Value → Except Unit Value)
    (sparse : String → Option Int) (payload : EsriPayload) (options : EsriOptions)
    (i : Nat) (f : EsriFeature) (hf : payload.features[i]? = some f)
    (ha : f.attributes = none) :
    (fromEsri conv sparse payload options).features[i]? =
      some { ftype := "Feature", properties := [],
             geometry := parseGeometry conv f.geometry } := by
  simp only [fromEsri, List.getElem?_map, hf, Option.map_some']
  simp [transformFeature, ha]

/-- **C10 witness**: the attribute-less feature of `payload10`. -/
theorem null_attributes_feature_witness :
    (fromEsri conv0 sparse0 payload10 none).features[0]? =
      some { ftype := "Feature", properties := [], geometry := .vNull } :=
  (null_attributes_feature conv0 sparse0 payload10 none 0 ⟨none, .vNull⟩ rfl rfl).trans rfl

end EsriToGeoJSON
